import Mathlib

/-
Verification of the blitzortung lightning-feed poller
(src/blitzortung/__init__.py) against its specification.

The update coordinator is embedded shallowly:
  * a JSON record line is an `Event` (fields `lat`, `lon`, `time` as in the
    feed, plus the two annotation fields written by `compute_polar_coords`);
  * the mutable coordinator state (`latitude`, `longitude`, `radius`,
    `host_nr`, `last_time`, `data`) is a `Coordinator` structure threaded
    explicitly;
  * the streaming while-loop of `_do_update` is the structural recursion
    `consumeLines` over the list of parsed lines; a `none` entry stands for a
    line on which `json.loads` raises (or the stream aborting mid-read), which
    propagates as an exception before the watermark commit;
  * the floating-point trigonometry of `compute_polar_coords` is modelled over
    the reals further below (`polarDistance`, `polarAzimuth`); the update loop
    is parametric in the two annotation functions `distOf`/`azOf` so that the
    control-flow theorems hold for every distance computation and stay
    executable.
Python integers are `Nat` (timestamps are nonnegative nanosecond counts),
Python floats used in comparisons of the loop are `ℚ`.
-/

namespace Blitzortung

/-- One parsed JSON record from the feed: the source-provided fields used by
the code (`lat`, `lon`, `time` in nanoseconds) and the two fields that
`compute_polar_coords` adds to the dict (`none` until annotated). -/
structure Event where
  lat : ℚ
  lon : ℚ
  time : Nat
  distance : Option ℚ := none
  azimuth : Option ℤ := none
deriving Repr, DecidableEq

/-- The mutable state of `BlitzortungDataUpdateCoordinator`: observer
location and radius (immutable after `__init__`), the host-rotation index
`host_nr`, the watermark `last_time` (0 in `__init__`, i.e. unset), and
`data`, the result of the last successful update as stored by the
`DataUpdateCoordinator` base class (`none` before the first success). -/
structure Coordinator where
  latitude : ℚ
  longitude : ℚ
  radius : ℚ
  host_nr : Nat
  last_time : Nat
  data : Option (List Event) := none
deriving Repr, DecidableEq

/-- `compute_polar_coords(self, lightning)`: annotates the record in place
with `ATTR_LIGHTNING_DISTANCE` and `ATTR_LIGHTNING_AZIMUTH`. The numerical
kernel is abstracted into the parameters `distOf`/`azOf`; the real-valued
kernel itself is `polarDistance`/`polarAzimuth` below. -/
def computePolarCoords (distOf : Event → ℚ) (azOf : Event → ℤ) (ev : Event) :
    Event :=
  { ev with distance := some (distOf ev), azimuth := some (azOf ev) }

/-- The `while True` read loop of `_do_update` (lines 174-186): read a line
(`[]` = end of stream, `none` = a line on which `json.loads` raises, so the
whole poll fails), break on `t <= self.last_time`, otherwise take
`last_time = max(t, last_time)`, annotate, and append to `latest` when the
computed distance is at most the radius. Arguments `lastTime` and `latest`
are the loop-local variables. -/
def consumeLines (distOf : Event → ℚ) (azOf : Event → ℤ) (c : Coordinator) :
    List (Option Event) → Nat → List Event → Except Unit (Nat × List Event)
  | [], lastTime, latest => .ok (lastTime, latest)
  | none :: _, _, _ => .error ()
  | some data :: rest, lastTime, latest =>
    if data.time ≤ c.last_time then
      .ok (lastTime, latest)
    else if (computePolarCoords distOf azOf data).distance.getD 0 ≤ c.radius then
      consumeLines distOf azOf c rest (max data.time lastTime)
        (latest ++ [computePolarCoords distOf azOf data])
    else
      consumeLines distOf azOf c rest (max data.time lastTime) latest

/-- `_do_update` (lines 157-191). The network side is summarised by the
`fetch` argument: `.error ()` is any exception escaping
`fetch_data`/`async_timeout` (connection error, non-200 after retry
exhaustion, timeout), on which the handler advances `host_nr` and re-raises;
`.ok lines` is a 200 response whose body parses line by line as `lines`.
Returns the raised-or-returned value together with the post-call state: the
watermark is committed only after the loop finishes without an exception,
and the return value is `[]` when the watermark was unset (`initial`). -/
def doUpdate (distOf : Event → ℚ) (azOf : Event → ℤ) (c : Coordinator)
    (fetch : Except Unit (List (Option Event))) :
    Except Unit (List Event) × Coordinator :=
  match fetch with
  | .error _ => (.error (), { c with host_nr := (c.host_nr + 1) % 3 })
  | .ok lines =>
    match consumeLines distOf azOf c lines c.last_time [] with
    | .error _ => (.error (), c)
    | .ok (lastTime, latest) =>
      (.ok (if c.last_time = 0 then [] else latest),
       if c.last_time < lastTime then { c with last_time := lastTime } else c)

/-- Modelled from the spec: the scheduling layer (the `DataUpdateCoordinator`
base class, which is not part of this repository) stores the value returned
by a successful `_do_update` call as the coordinator's current `data`; a
failed update leaves `data` untouched. One full poll tick. -/
def applyPoll (distOf : Event → ℚ) (azOf : Event → ℤ) (c : Coordinator)
    (fetch : Except Unit (List (Option Event))) : Coordinator :=
  match doUpdate distOf azOf c fetch with
  | (.ok latest, c') => { c' with data := some latest }
  | (.error _, c') => c'

/-- A sequence of poll ticks with the given fetch outcomes. -/
def runPolls (distOf : Event → ℚ) (azOf : Event → ℤ) :
    Coordinator → List (Except Unit (List (Option Event))) → Coordinator
  | c, [] => c
  | c, f :: fs => runPolls distOf azOf (applyPoll distOf azOf c f) fs

/-- `latest_lightnings` (lines 135-137): a generator over
`reversed(self.data or ())`; as a pure function, the list it yields. -/
def latestLightnings (c : Coordinator) : List Event :=
  (c.data.getD []).reverse

/-- The records of a stream that the read loop consumes and treats as new
(strictly newer than the stored watermark `wm`): the longest prefix of
parsed records all strictly newer than `wm`. Mirrors the break condition of
`consumeLines`. -/
def consumedNew (wm : Nat) : List (Option Event) → List Event
  | [] => []
  | none :: _ => []
  | some ev :: rest => if ev.time ≤ wm then [] else ev :: consumedNew wm rest

/-- `is_inactive` (lines 193-196): `time.time() - self.last_time / 1e9 >
INACTIVITY_RESET_SECONDS`. The wall clock `now` and the threshold (the
constant lives in `const.py`, outside the sources at hand) are parameters. -/
def isInactive (now : ℚ) (c : Coordinator) (threshold : ℚ) : Bool :=
  decide (now - (c.last_time : ℚ) / (10 ^ 9 : ℚ) > threshold)

/-- The result of `fetch_data`: the value returned or the exception raised,
the host index after the call, how many times the rotation index was
advanced, and the backoff sleeps performed (in seconds). On success the code
returns the response; the model returns the host index that served it. -/
structure FetchResult where
  result : Except Unit Nat
  host_nr : Nat
  advances : Nat
  sleeps : List Nat
deriving Repr

/-- `fetch_data` (lines 139-155): try the current host; on any failure set
`host_nr = (host_nr + 1) % 3`, increment `try_nr`, re-raise once
`try_nr >= MAX_RETRIES`, else sleep `2 ** try_nr` seconds and retry. The
`attempts` list gives each attempt's outcome (`true` = 200 response); it is
consumed one entry per attempt, so any list at least `maxRetries` long
covers every run. -/
def fetchData (maxRetries : Nat) :
    List Bool → Nat → Nat → Nat → List Nat → FetchResult
  | [], host, _, advances, sleeps => ⟨.error (), host, advances, sleeps⟩
  | ok :: rest, host, tryNr, advances, sleeps =>
    if ok then ⟨.ok host, host, advances, sleeps⟩
    else
      let host' := (host + 1) % 3
      let tryNr' := tryNr + 1
      if maxRetries ≤ tryNr' then ⟨.error (), host', advances + 1, sleeps⟩
      else fetchData maxRetries rest host' tryNr' (advances + 1)
        (sleeps ++ [2 ^ tryNr'])

/-- Concrete fixtures used by witnesses and counterexamples below. -/
def distZero : Event → ℚ := fun _ => 0

/-- A distance annotation that always exceeds the fixture radius of 1. -/
def distFive : Event → ℚ := fun _ => 5

/-- Azimuth annotation fixture. -/
def azZero : Event → ℤ := fun _ => 0

/-- An event with the given timestamp at the observer's location. -/
def mkEvent (t : Nat) : Event := { lat := 0, lon := 0, time := t }

/-- A coordinator whose stored watermark is 10, radius 1. -/
def coordW : Coordinator :=
  { latitude := 0, longitude := 0, radius := 1, host_nr := 1, last_time := 10 }

/-- A freshly constructed coordinator: watermark unset (0). -/
def coordInit : Coordinator :=
  { latitude := 0, longitude := 0, radius := 1, host_nr := 1, last_time := 0 }

/-- The loop-local `last_time` of `consumeLines` never decreases. -/
theorem consumeLines_le (distOf : Event → ℚ) (azOf : Event → ℤ)
    (c : Coordinator) :
    ∀ (lines : List (Option Event)) (lt : Nat) (acc : List Event)
      (lt' : Nat) (acc' : List Event),
      consumeLines distOf azOf c lines lt acc = .ok (lt', acc') → lt ≤ lt' := by
  intro lines
  induction lines with
  | nil =>
    intro lt acc lt' acc' h
    simp only [consumeLines, Except.ok.injEq, Prod.mk.injEq] at h
    omega
  | cons hd tl ih =>
    intro lt acc lt' acc' h
    rcases hd with _ | data
    · simp only [consumeLines] at h
      exact Except.noConfusion h
    · simp only [consumeLines] at h
      by_cases ht : data.time ≤ c.last_time
      · rw [if_pos ht] at h
        simp only [Except.ok.injEq, Prod.mk.injEq] at h
        omega
      · rw [if_neg ht] at h
        by_cases hdist :
            (computePolarCoords distOf azOf data).distance.getD 0 ≤ c.radius
        · rw [if_pos hdist] at h
          have := ih _ _ _ _ h
          omega
        · rw [if_neg hdist] at h
          have := ih _ _ _ _ h
          omega

/-- Every record of the consumed-new prefix is bounded by the loop's final
`last_time`. -/
theorem consumeLines_consumedNew_le (distOf : Event → ℚ) (azOf : Event → ℤ)
    (c : Coordinator) :
    ∀ (lines : List (Option Event)) (lt : Nat) (acc : List Event)
      (lt' : Nat) (acc' : List Event),
      consumeLines distOf azOf c lines lt acc = .ok (lt', acc') →
      ∀ ev ∈ consumedNew c.last_time lines, ev.time ≤ lt' := by
  intro lines
  induction lines with
  | nil => intro lt acc lt' acc' _ ev hev; simp [consumedNew] at hev
  | cons hd tl ih =>
    intro lt acc lt' acc' h ev hev
    rcases hd with _ | data
    · simp [consumedNew] at hev
    · simp only [consumeLines] at h
      by_cases ht : data.time ≤ c.last_time
      · simp [consumedNew, ht] at hev
      · rw [if_neg ht] at h
        simp only [consumedNew, ht, if_false, List.mem_cons] at hev
        by_cases hdist :
            (computePolarCoords distOf azOf data).distance.getD 0 ≤ c.radius
        · rw [if_pos hdist] at h
          rcases hev with heq | hev
          · have := consumeLines_le distOf azOf c tl _ _ _ _ h
            subst heq
            omega
          · exact ih _ _ _ _ h ev hev
        · rw [if_neg hdist] at h
          rcases hev with heq | hev
          · have := consumeLines_le distOf azOf c tl _ _ _ _ h
            subst heq
            omega
          · exact ih _ _ _ _ h ev hev

/-- Events appended by the loop carry a distance annotation at most the
radius; the property is preserved from the accumulator to the result. -/
theorem consumeLines_dist_bound (distOf : Event → ℚ) (azOf : Event → ℤ)
    (c : Coordinator) :
    ∀ (lines : List (Option Event)) (lt : Nat) (acc : List Event)
      (lt' : Nat) (acc' : List Event),
      (∀ ev ∈ acc, ∃ q, ev.distance = some q ∧ q ≤ c.radius) →
      consumeLines distOf azOf c lines lt acc = .ok (lt', acc') →
      ∀ ev ∈ acc', ∃ q, ev.distance = some q ∧ q ≤ c.radius := by
  intro lines
  induction lines with
  | nil =>
    intro lt acc lt' acc' hacc h
    simp only [consumeLines, Except.ok.injEq, Prod.mk.injEq] at h
    exact h.2 ▸ hacc
  | cons hd tl ih =>
    intro lt acc lt' acc' hacc h
    rcases hd with _ | data
    · simp only [consumeLines] at h
      exact Except.noConfusion h
    · simp only [consumeLines] at h
      by_cases ht : data.time ≤ c.last_time
      · rw [if_pos ht] at h
        simp only [Except.ok.injEq, Prod.mk.injEq] at h
        exact h.2 ▸ hacc
      · rw [if_neg ht] at h
        by_cases hdist :
            (computePolarCoords distOf azOf data).distance.getD 0 ≤ c.radius
        · rw [if_pos hdist] at h
          refine ih _ _ _ _ ?_ h
          intro ev hev
          rcases List.mem_append.mp hev with hev | hev
          · exact hacc ev hev
          · rw [List.mem_singleton.mp hev]
            exact ⟨distOf data, rfl, by simpa [computePolarCoords] using hdist⟩
        · rw [if_neg hdist] at h
          exact ih _ _ _ _ hacc h

/-- Everything after the first record whose timestamp is at or below the
stored watermark is never read by the loop. -/
theorem consumeLines_suffix_indep (distOf : Event → ℚ) (azOf : Event → ℤ)
    (c : Coordinator) (ev : Event) (hev : ev.time ≤ c.last_time) :
    ∀ (pre s1 s2 : List (Option Event)) (lt : Nat) (acc : List Event),
      (∀ x ∈ pre, ∃ e, x = some e ∧ c.last_time < e.time) →
      consumeLines distOf azOf c (pre ++ some ev :: s1) lt acc =
        consumeLines distOf azOf c (pre ++ some ev :: s2) lt acc := by
  intro pre
  induction pre with
  | nil =>
    intro s1 s2 lt acc _
    simp only [List.nil_append, consumeLines, if_pos hev]
  | cons hd tl ih =>
    intro s1 s2 lt acc hpre
    obtain ⟨e, rfl, he⟩ := hpre hd (List.mem_cons_self hd tl)
    have hnot : ¬ e.time ≤ c.last_time := by omega
    simp only [List.cons_append, consumeLines, if_neg hnot]
    by_cases hdist :
        (computePolarCoords distOf azOf e).distance.getD 0 ≤ c.radius
    · rw [if_pos hdist, if_pos hdist]
      exact ih s1 s2 _ _ fun x hx => hpre x (List.mem_cons_of_mem _ hx)
    · rw [if_neg hdist, if_neg hdist]
      exact ih s1 s2 _ _ fun x hx => hpre x (List.mem_cons_of_mem _ hx)

/-- `_do_update` never decreases the stored watermark. -/
theorem doUpdate_last_time_le (distOf : Event → ℚ) (azOf : Event → ℤ)
    (c : Coordinator) (f : Except Unit (List (Option Event))) :
    c.last_time ≤ (doUpdate distOf azOf c f).2.last_time := by
  rcases f with _ | lines
  · simp [doUpdate]
  · simp only [doUpdate]
    rcases h : consumeLines distOf azOf c lines c.last_time [] with _ | ⟨lt', acc'⟩
    · simp
    · by_cases hlt : c.last_time < lt'
      · simp [hlt]
        omega
      · simp [hlt]

/-- A failed `_do_update` leaves the stored watermark exactly unchanged. -/
theorem doUpdate_error_last_time (distOf : Event → ℚ) (azOf : Event → ℤ)
    (c : Coordinator) (f : Except Unit (List (Option Event)))
    (h : (doUpdate distOf azOf c f).1 = .error ()) :
    (doUpdate distOf azOf c f).2.last_time = c.last_time := by
  rcases f with _ | lines
  · simp [doUpdate]
  · simp only [doUpdate] at h ⊢
    rcases hc : consumeLines distOf azOf c lines c.last_time [] with _ | ⟨lt', acc'⟩
    · simp
    · rw [hc] at h
      exact Except.noConfusion h

/-- A full poll tick changes `last_time` exactly as `_do_update` does. -/
theorem applyPoll_last_time (distOf : Event → ℚ) (azOf : Event → ℤ)
    (c : Coordinator) (f : Except Unit (List (Option Event))) :
    (applyPoll distOf azOf c f).last_time =
      (doUpdate distOf azOf c f).2.last_time := by
  rcases h : doUpdate distOf azOf c f with ⟨r, c'⟩
  rcases r with _ | latest <;> simp [applyPoll, h]

/-- The watermark never decreases over any sequence of poll ticks. -/
theorem runPolls_last_time_le (distOf : Event → ℚ) (azOf : Event → ℤ) :
    ∀ (fs : List (Except Unit (List (Option Event)))) (c : Coordinator),
      c.last_time ≤ (runPolls distOf azOf c fs).last_time := by
  intro fs
  induction fs with
  | nil => intro c; simp [runPolls]
  | cons f fs ih =>
    intro c
    have h1 : c.last_time ≤ (applyPoll distOf azOf c f).last_time := by
      rw [applyPoll_last_time]
      exact doUpdate_last_time_le distOf azOf c f
    exact le_trans h1 (ih _)

/-- The ascending stream whose records carry timestamps 5, 10, 15. -/
def streamAsc : List (Option Event) :=
  [some (mkEvent 5), some (mkEvent 10), some (mkEvent 15)]

/-- C1 counterexample: on a stream in ascending timestamp order [5, 10, 15]
with stored watermark 10, `_do_update`'s loop stops at the very first record
(5 ≤ 10): no record is treated as new and the stored watermark stays 10, not
15, refuting the claim at this input. -/
theorem C1_ascending_counterexample :
    (doUpdate distZero azZero coordW (.ok streamAsc)).2.last_time = 10 ∧
    (doUpdate distZero azZero coordW (.ok streamAsc)).2.last_time ≠ 15 ∧
    consumedNew coordW.last_time streamAsc = [] ∧
    (consumedNew coordW.last_time streamAsc).length ≠ 1 := by
  refine ⟨?_, ?_, ?_, ?_⟩ <;> decide

/-- C1 amended: with the same timestamps arriving most-recent-first
([15, 10, 5] — the order the loop's break condition presumes of the feed)
and stored watermark 10, exactly one record (the one with t = 15) is treated
as new and the stored watermark equals 15 after the poll. -/
theorem C1_descending_one_new (distOf : Event → ℚ) (azOf : Event → ℤ)
    (c : Coordinator) (a b e : Event) (hc : c.last_time = 10)
    (ha : a.time = 15) (hb : b.time = 10) (he : e.time = 5) :
    consumedNew c.last_time [some a, some b, some e] = [a] ∧
    (doUpdate distOf azOf c
      (.ok [some a, some b, some e])).2.last_time = 15 := by
  have h1 : ¬ a.time ≤ c.last_time := by omega
  have h2 : b.time ≤ c.last_time := by omega
  constructor
  · simp [consumedNew, h1, h2]
  · by_cases hdist :
        (computePolarCoords distOf azOf a).distance.getD 0 ≤ c.radius
    · simp [doUpdate, consumeLines, hdist, hc, ha, hb, he]
    · simp [doUpdate, consumeLines, hdist, hc, ha, hb, he]

/-- C1 amended witness at concrete events with timestamps 15, 10, 5. -/
theorem C1_descending_one_new_witness :
    consumedNew coordW.last_time
        [some (mkEvent 15), some (mkEvent 10), some (mkEvent 5)] =
      [mkEvent 15] ∧
    (doUpdate distZero azZero coordW
      (.ok [some (mkEvent 15), some (mkEvent 10),
        some (mkEvent 5)])).2.last_time = 15 :=
  C1_descending_one_new distZero azZero coordW (mkEvent 15) (mkEvent 10)
    (mkEvent 5) rfl rfl rfl rfl

/-- C2: the stored watermark is monotonically non-decreasing across every
sequence of polls; a single poll leaves it unchanged or increases it, and a
poll that fails at any point (fetch error, timeout or retry exhaustion — all
of which reach `_do_update` as an exception from `fetch_data` — or a parse
error mid-stream) leaves it exactly unchanged. -/
theorem C2_watermark_monotone (distOf : Event → ℚ) (azOf : Event → ℤ)
    (c : Coordinator) :
    (∀ fs, c.last_time ≤ (runPolls distOf azOf c fs).last_time) ∧
    (∀ f, c.last_time ≤ (doUpdate distOf azOf c f).2.last_time) ∧
    (∀ f, (doUpdate distOf azOf c f).1 = .error () →
      (doUpdate distOf azOf c f).2.last_time = c.last_time) :=
  ⟨fun fs => runPolls_last_time_le distOf azOf fs c,
   fun f => doUpdate_last_time_le distOf azOf c f,
   fun f h => doUpdate_error_last_time distOf azOf c f h⟩

/-- C2 witness: a concrete failed poll (fetch error) leaves the stored
watermark of `coordW` at its prior value. -/
theorem C2_watermark_monotone_witness :
    (doUpdate distZero azZero coordW (.error ())).2.last_time =
      coordW.last_time :=
  (C2_watermark_monotone distZero azZero coordW).2.2 (.error ()) rfl

/-- C3: when the stored watermark is unset (zero) before the poll, a
successful `_do_update` returns the empty list regardless of the candidate
events collected from the stream, but still commits the watermark computed
from them. -/
theorem C3_initial_poll_empty (distOf : Event → ℚ) (azOf : Event → ℤ)
    (c : Coordinator) (lines : List (Option Event)) (lt' : Nat)
    (latest' : List Event) (h0 : c.last_time = 0)
    (h : consumeLines distOf azOf c lines c.last_time [] = .ok (lt', latest')) :
    (doUpdate distOf azOf c (.ok lines)).1 = .ok [] ∧
    (doUpdate distOf azOf c (.ok lines)).2.last_time = lt' := by
  have hle := consumeLines_le distOf azOf c lines _ _ _ _ h
  simp only [doUpdate, h]
  constructor
  · simp [h0]
  · by_cases hlt : c.last_time < lt'
    · simp [hlt]
    · simp only [hlt, if_neg, if_false]
      omega

/-- C3 witness: initial poll over a two-record stream returns `[]` and sets
the watermark to 15. -/
theorem C3_initial_poll_empty_witness :
    (doUpdate distZero azZero coordInit
      (.ok [some (mkEvent 15), some (mkEvent 7)])).1 = .ok [] ∧
    (doUpdate distZero azZero coordInit
      (.ok [some (mkEvent 15), some (mkEvent 7)])).2.last_time = 15 :=
  C3_initial_poll_empty distZero azZero coordInit
    [some (mkEvent 15), some (mkEvent 7)] 15
    [computePolarCoords distZero azZero (mkEvent 15),
     computePolarCoords distZero azZero (mkEvent 7)] rfl rfl

/-- C4: every event in the list returned by a successful `_do_update` carries
a computed distance annotation that is at most the configured radius. -/
theorem C4_returned_within_radius (distOf : Event → ℚ) (azOf : Event → ℤ)
    (c : Coordinator) (f : Except Unit (List (Option Event)))
    (res : List Event) (c' : Coordinator)
    (h : doUpdate distOf azOf c f = (.ok res, c')) :
    ∀ ev ∈ res, ∃ q, ev.distance = some q ∧ q ≤ c.radius := by
  rcases f with _ | lines
  · simp [doUpdate] at h
  · simp only [doUpdate] at h
    rcases hc : consumeLines distOf azOf c lines c.last_time []
      with _ | ⟨lt', acc'⟩
    · rw [hc] at h
      simp at h
    · rw [hc] at h
      simp only [Prod.mk.injEq, Except.ok.injEq] at h
      obtain ⟨hres, -⟩ := h
      by_cases h0 : c.last_time = 0
      · rw [if_pos h0] at hres
        subst hres
        intro ev hev
        simp at hev
      · rw [if_neg h0] at hres
        subst hres
        exact consumeLines_dist_bound distOf azOf c lines _ _ _ _
          (by simp) hc

/-- C4 witness: the event returned from a concrete successful poll has
distance annotation 0 ≤ radius 1. -/
theorem C4_returned_within_radius_witness :
    ∃ q, (computePolarCoords distZero azZero (mkEvent 15)).distance = some q ∧
      q ≤ coordW.radius :=
  C4_returned_within_radius distZero azZero coordW (.ok [some (mkEvent 15)])
    [computePolarCoords distZero azZero (mkEvent 15)]
    { coordW with last_time := 15 } rfl
    (computePolarCoords distZero azZero (mkEvent 15)) (by simp)

/-- C5: every record the loop consumes whose timestamp is strictly greater
than the stored watermark pushes the post-poll watermark to at least that
timestamp, even when the record is excluded from the returned list by the
radius filter. -/
theorem C5_consumed_advances_watermark (distOf : Event → ℚ) (azOf : Event → ℤ)
    (c : Coordinator) (lines : List (Option Event)) (res : List Event)
    (c' : Coordinator)
    (h : doUpdate distOf azOf c (.ok lines) = (.ok res, c')) :
    ∀ ev ∈ consumedNew c.last_time lines, ev.time ≤ c'.last_time := by
  simp only [doUpdate] at h
  rcases hc : consumeLines distOf azOf c lines c.last_time []
    with _ | ⟨lt', acc'⟩
  · rw [hc] at h
    simp at h
  · rw [hc] at h
    simp only [Prod.mk.injEq, Except.ok.injEq] at h
    obtain ⟨-, hc'⟩ := h
    intro ev hev
    have hle := consumeLines_consumedNew_le distOf azOf c lines _ _ _ _ hc
      ev hev
    subst hc'
    by_cases hlt : c.last_time < lt'
    · simpa [hlt] using hle
    · simp only [hlt, if_false, if_neg]
      omega

/-- C5 witness: a record at t = 15 whose distance annotation 5 exceeds the
radius 1 is excluded from the result, yet the watermark still reaches 15. -/
theorem C5_consumed_advances_watermark_witness :
    (mkEvent 15).time ≤
      ({ coordW with last_time := 15 } : Coordinator).last_time :=
  C5_consumed_advances_watermark distFive azZero coordW [some (mkEvent 15)]
    [] { coordW with last_time := 15 } rfl (mkEvent 15) (by decide)

/-- C7: `is_inactive` is true exactly when the current time minus the stored
watermark converted from nanoseconds to seconds exceeds the inactivity
threshold, and false otherwise. -/
theorem C7_is_inactive_iff (now threshold : ℚ) (c : Coordinator) :
    isInactive now c threshold = true ↔
      threshold < now - (c.last_time : ℚ) / 10 ^ 9 := by
  simp [isInactive]

/-- C9: `latest_lightnings` yields exactly the events stored by the most
recent successful poll, in reverse of stored order (most-recent-first); it
reads only the stored data, performing no fetch. -/
theorem C9_latest_most_recent_first (distOf : Event → ℚ) (azOf : Event → ℤ)
    (c : Coordinator) (f : Except Unit (List (Option Event)))
    (latest : List Event) (c' : Coordinator)
    (h : doUpdate distOf azOf c f = (.ok latest, c')) :
    latestLightnings (applyPoll distOf azOf c f) = latest.reverse ∧
    ∀ i, i < latest.length →
      (latestLightnings (applyPoll distOf azOf c f))[i]? =
        latest[latest.length - 1 - i]? := by
  have happ : applyPoll distOf azOf c f = { c' with data := some latest } := by
    simp [applyPoll, h]
  refine ⟨by simp [happ, latestLightnings], fun i hi => ?_⟩
  simp only [happ, latestLightnings, Option.getD_some]
  exact List.getElem?_reverse hi

/-- C9 witness at a concrete successful poll returning one event. -/
theorem C9_latest_most_recent_first_witness :
    latestLightnings (applyPoll distZero azZero coordW
        (.ok [some (mkEvent 15)])) =
      [computePolarCoords distZero azZero (mkEvent 15)].reverse ∧
    ∀ i, i < ([computePolarCoords distZero azZero (mkEvent 15)]).length →
      (latestLightnings (applyPoll distZero azZero coordW
        (.ok [some (mkEvent 15)])))[i]? =
        ([computePolarCoords distZero azZero (mkEvent 15)])[
          ([computePolarCoords distZero azZero (mkEvent 15)]).length - 1 - i]? :=
  C9_latest_most_recent_first distZero azZero coordW (.ok [some (mkEvent 15)])
    [computePolarCoords distZero azZero (mkEvent 15)]
    { coordW with last_time := 15 } rfl

/-- C10: once the loop hits a record whose timestamp is at or below the
stored watermark, nothing after it in the response is read: the poll's
returned value and post-state are independent of the rest of the stream. -/
theorem C10_stale_stops_stream (distOf : Event → ℚ) (azOf : Event → ℤ)
    (c : Coordinator) (pre s1 s2 : List (Option Event)) (ev : Event)
    (hpre : ∀ x ∈ pre, ∃ e, x = some e ∧ c.last_time < e.time)
    (hev : ev.time ≤ c.last_time) :
    doUpdate distOf azOf c (.ok (pre ++ some ev :: s1)) =
      doUpdate distOf azOf c (.ok (pre ++ some ev :: s2)) := by
  simp only [doUpdate]
  rw [consumeLines_suffix_indep distOf azOf c ev hev pre s1 s2
    c.last_time [] hpre]

/-- C10 witness: after the stale record at t = 10, a fresh record at t = 99
and even an unparseable line are equally invisible to the poll. -/
theorem C10_stale_stops_stream_witness :
    doUpdate distZero azZero coordW
        (.ok [some (mkEvent 15), some (mkEvent 10), some (mkEvent 99)]) =
      doUpdate distZero azZero coordW
        (.ok [some (mkEvent 15), some (mkEvent 10), none]) :=
  C10_stale_stops_stream distZero azZero coordW [some (mkEvent 15)]
    [some (mkEvent 99)] [none] (mkEvent 10)
    (fun x hx => by
      rw [List.mem_singleton.mp hx]
      exact ⟨mkEvent 15, rfl, by decide⟩)
    (by decide)

/-- C6: each failed attempt of `fetch_data` advances the host rotation index
by one modulo the pool size 3 and increments the attempt counter; below the
retry ceiling it sleeps 2^attempt seconds and retries, and at the ceiling
the failure propagates; with ceiling 3, three consecutive failures advance
the index three times (hence at least twice), sleep 2 then 4 seconds, and
raise the error. -/
theorem C6_retry_bounded :
    (∀ (maxRetries : Nat) (rest : List Bool) (host tryNr advances : Nat)
        (sleeps : List Nat),
      fetchData maxRetries (false :: rest) host tryNr advances sleeps =
        if maxRetries ≤ tryNr + 1 then
          ⟨.error (), (host + 1) % 3, advances + 1, sleeps⟩
        else
          fetchData maxRetries rest ((host + 1) % 3) (tryNr + 1)
            (advances + 1) (sleeps ++ [2 ^ (tryNr + 1)])) ∧
    (∀ host : Nat,
      (fetchData 3 [false, false, false] host 0 0 []).result = .error () ∧
      (fetchData 3 [false, false, false] host 0 0 []).advances = 3 ∧
      2 ≤ (fetchData 3 [false, false, false] host 0 0 []).advances ∧
      (fetchData 3 [false, false, false] host 0 0 []).host_nr =
        (host + 3) % 3 ∧
      (fetchData 3 [false, false, false] host 0 0 []).sleeps = [2, 4]) := by
  constructor
  · intro maxRetries rest host tryNr advances sleeps
    simp [fetchData]
  · intro host
    refine ⟨?_, ?_, ?_, ?_, ?_⟩ <;> simp [fetchData] <;> omega

/-- `math.atan2(y, x)` on the reals (the C-library convention Python's
`math` module follows); the code's double-precision floats are modelled by
real numbers here. -/
noncomputable def atan2 (y x : ℝ) : ℝ :=
  if 0 < x then Real.arctan (y / x)
  else if x < 0 ∧ 0 ≤ y then Real.arctan (y / x) + Real.pi
  else if x < 0 then Real.arctan (y / x) - Real.pi
  else if 0 < y then Real.pi / 2
  else if y < 0 then -(Real.pi / 2)
  else 0

/-- The north planar delta `dy` of `compute_polar_coords` (line 122):
`(lightning["lat"] - self.latitude) * math.pi / 180`. -/
noncomputable def deltaY (olat elat : ℝ) : ℝ := (elat - olat) * Real.pi / 180

/-- The east planar delta `dx` of `compute_polar_coords` (lines 123-128):
`(lightning["lon"] - self.longitude) * math.pi / 180 * math.cos(self.latitude
* math.pi / 180)`. -/
noncomputable def deltaX (olat olon elon : ℝ) : ℝ :=
  (elon - olon) * Real.pi / 180 * Real.cos (olat * Real.pi / 180)

/-- Python's `round(x, 1)`: the nearest multiple of one tenth (Python breaks
ties to even; no value treated below is a tie). -/
noncomputable def round1 (x : ℝ) : ℝ := (round (x * 10) : ℤ) / 10

/-- The distance annotation of `compute_polar_coords` (line 129):
`round(math.sqrt(dx * dx + dy * dy) * 6371, 1)`. -/
noncomputable def polarDistance (olat olon elat elon : ℝ) : ℝ :=
  round1 (Real.sqrt (deltaX olat olon elon * deltaX olat olon elon +
    deltaY olat elat * deltaY olat elat) * 6371)

/-- The azimuth annotation of `compute_polar_coords` (line 130):
`round(math.atan2(dx, dy) * 180 / math.pi)`. -/
noncomputable def polarAzimuth (olat olon elat elon : ℝ) : ℤ :=
  round (atan2 (deltaX olat olon elon) (deltaY olat elat) * 180 / Real.pi)

/-- C8: with the observer at latitude 0, longitude 0, an event at (1, 0)
(1° north) gets azimuth 0 and the positive distance 111.2 km (so within
[111, 112]); an event at (0, 1) (1° east) gets azimuth 90. -/
theorem C8_polar_cardinal_points :
    polarAzimuth 0 0 1 0 = 0 ∧
    polarDistance 0 0 1 0 = 111.2 ∧
    0 < polarDistance 0 0 1 0 ∧
    111 ≤ polarDistance 0 0 1 0 ∧
    polarDistance 0 0 1 0 ≤ 112 ∧
    polarAzimuth 0 0 0 1 = 90 := by
  have hdx0 : deltaX 0 0 0 = 0 := by simp [deltaX]
  have hdy1 : deltaY 0 1 = Real.pi / 180 := by simp [deltaY]
  have hdy0 : deltaY 0 0 = 0 := by simp [deltaY]
  have hdx1 : deltaX 0 0 1 = Real.pi / 180 := by
    simp [deltaX, Real.cos_zero]
  have hpos : (0 : ℝ) < Real.pi / 180 := by positivity
  have haz1 : polarAzimuth 0 0 1 0 = 0 := by
    unfold polarAzimuth
    rw [hdx0, hdy1]
    unfold atan2
    rw [if_pos hpos]
    simp [Real.arctan_zero]
  have hdist : polarDistance 0 0 1 0 = 111.2 := by
    have hsq : Real.sqrt (deltaX 0 0 0 * deltaX 0 0 0 +
        deltaY 0 1 * deltaY 0 1) = Real.pi / 180 := by
      rw [hdx0, hdy1, mul_zero, zero_add]
      exact Real.sqrt_mul_self (le_of_lt hpos)
    have hround : round (Real.pi / 180 * 6371 * 10) = 1112 := by
      have h1 := Real.pi_gt_d6
      have h2 := Real.pi_lt_d6
      rw [round_eq, Int.floor_eq_iff]
      constructor
      · push_cast
        nlinarith
      · push_cast
        nlinarith
    unfold polarDistance round1
    rw [hsq, hround]
    norm_num
  have haz2 : polarAzimuth 0 0 0 1 = 90 := by
    unfold polarAzimuth
    rw [hdx1, hdy0]
    unfold atan2
    rw [if_neg (lt_irrefl (0 : ℝ)), if_neg (fun h => lt_irrefl (0 : ℝ) h.1),
      if_neg (lt_irrefl (0 : ℝ)), if_pos hpos]
    have h90 : Real.pi / 2 * 180 / Real.pi = 90 := by
      field_simp
      ring
    rw [h90, show (90 : ℝ) = ((90 : ℤ) : ℝ) by norm_num, round_intCast]
  refine ⟨haz1, hdist, ?_, ?_, ?_, haz2⟩ <;> rw [hdist] <;> norm_num

end Blitzortung
